import Mathlib

/-!
# GDS Push-Management Core: shallow embedding and verification

A shallow embedding of the open62541 GDS push-management subsystem:

* the file-backed certificate store (`plugins/crypto/ua_certificategroup_common.c`),
* the mbedTLS certificate verifier wrapper
  (`plugins/crypto/mbedtls/ua_certificategroup_mbedtls.c`),
* the NS0 GDS dispatcher with its trust-list virtual file and transaction
  handling (`src/server/ua_server_ns0_gds.c`).

Byte strings are `List Nat`.  A certificate-store directory is modelled as the
list of file contents it holds; a stored file's name is derived from the
content's SHA-1 thumbprint (`getCertFileName`), which the specification
declares an external collaborator and injective ("uniquely identified by a
20-byte SHA-1 thumbprint"), so writing the same bytes twice overwrites the
same file and the directory behaves as a set of byte strings.

Cryptographic primitives (X.509 parsing, chain verification, thumbprints)
are external collaborators of the core; they enter the model as explicit
oracle parameters so that every theorem quantifies over their behaviour.
-/

set_option autoImplicit false

namespace GDSPush

/-- A byte string (`UA_ByteString`). -/
abbrev Bytes := List Nat

/-- The status codes observable from the modelled operations. -/
inductive StatusCode where
  | good
  | badTypeMismatch
  | badInvalidArgument
  | badInvalidState
  | badTransactionPending
  | badUserAccessDenied
  | badNothingToDo
  | badNotWritable
  | badNotReadable
  | badCertificateUntrusted
  | badCertificateTimeInvalid
  | badCertificateRevoked
  | badCertificateRevocationUnknown
  | badCertificateIssuerRevocationUnknown
  | badCertificateUseNotAllowed
  | badSecurityChecksFailed
  | badInternalError
  deriving DecidableEq, Repr

/-- The state of one group's file-backed certificate store: the four
    trust-list directories plus the rejected directory.  Each directory is
    the list of file contents, ordered by creation. -/
structure CertStore where
  trustedCertificates : List Bytes
  trustedCrls : List Bytes
  issuerCertificates : List Bytes
  issuerCrls : List Bytes
  rejected : List Bytes
  deriving DecidableEq, Repr

/-- The `UA_TrustListDataType` carrier: four lists plus the
    `specifiedLists` bitmask (`UA_TRUSTLISTMASKS_TRUSTEDCERTIFICATES = 1`,
    `TRUSTEDCRLS = 2`, `ISSUERCERTIFICATES = 4`, `ISSUERCRLS = 8`). -/
structure TrustListDataType where
  specifiedLists : Nat
  trustedCertificates : List Bytes
  trustedCrls : List Bytes
  issuerCertificates : List Bytes
  issuerCrls : List Bytes
  deriving DecidableEq, Repr

/-- The four trust-list directories of a store. -/
inductive TLDir where
  | tCerts
  | tCrls
  | iCerts
  | iCrls
  deriving DecidableEq, Repr

/-- Read one directory of the store. -/
def getDir (s : CertStore) : TLDir → List Bytes
  | .tCerts => s.trustedCertificates
  | .tCrls  => s.trustedCrls
  | .iCerts => s.issuerCertificates
  | .iCrls  => s.issuerCrls

/-- Replace one directory of the store. -/
def setDir (s : CertStore) (d : TLDir) (l : List Bytes) : CertStore :=
  match d with
  | .tCerts => { s with trustedCertificates := l }
  | .tCrls  => { s with trustedCrls := l }
  | .iCerts => { s with issuerCertificates := l }
  | .iCrls  => { s with issuerCrls := l }

/-- `checkCertificateInList` (ua_certificategroup_common.c): loads the full
    trust list and reports whether the byte string occurs among the trusted
    or the issuer *certificates* (the CRL lists are not consulted). -/
def checkCertificateInList (s : CertStore) (c : Bytes) : Bool :=
  s.trustedCertificates.contains c || s.issuerCertificates.contains c

/-- Writing a byte string into a directory: the file name is determined by
    the content (subject + thumbprint, `getCertFileName`), so identical
    content overwrites the same file and the directory gains at most one
    entry. -/
def writeByteStringToDir (dir : List Bytes) (c : Bytes) : List Bytes :=
  if dir.contains c then dir else dir ++ [c]

/-- One iteration of the `storeList` loop: skip the item when
    `checkCertificateInList` finds it, otherwise write its file. -/
def storeStep (s : CertStore) (d : TLDir) (c : Bytes) : CertStore :=
  if checkCertificateInList s c then s
  else setDir s d (writeByteStringToDir (getDir s d) c)

/-- `storeList` (ua_certificategroup_common.c): store a list of byte strings
    into one directory, re-checking the store before each item. -/
def storeList (s : CertStore) (d : TLDir) (l : List Bytes) : CertStore :=
  l.foldl (fun st c => storeStep st d c) s

/-- `newList`: remove every file from the directory, then `storeList`. -/
def newList (s : CertStore) (d : TLDir) (l : List Bytes) : CertStore :=
  storeList (setDir s d []) d l

/-- One conditional phase of `FileCertStore_setTrustList`. -/
def setPhase (s : CertStore) (b : Bool) (d : TLDir) (l : List Bytes) : CertStore :=
  if b then newList s d l else s

/-- `FileCertStore_setTrustList`: for each selected sub-list, in mask order
    (trusted certs, trusted CRLs, issuer certs, issuer CRLs), replace the
    directory contents via `newList`. -/
def FileCertStore_setTrustList (s : CertStore) (tl : TrustListDataType) : CertStore :=
  let s1 := setPhase s (tl.specifiedLists.testBit 0) .tCerts tl.trustedCertificates
  let s2 := setPhase s1 (tl.specifiedLists.testBit 1) .tCrls tl.trustedCrls
  let s3 := setPhase s2 (tl.specifiedLists.testBit 2) .iCerts tl.issuerCertificates
  setPhase s3 (tl.specifiedLists.testBit 3) .iCrls tl.issuerCrls

/-- One conditional phase of `FileCertStore_addToTrustList`. -/
def addPhase (s : CertStore) (b : Bool) (d : TLDir) (l : List Bytes) : CertStore :=
  if b then storeList s d l else s

/-- `FileCertStore_addToTrustList`: for each selected sub-list, union the
    given items into the directory via `storeList` (no clearing). -/
def FileCertStore_addToTrustList (s : CertStore) (tl : TrustListDataType) : CertStore :=
  let s1 := addPhase s (tl.specifiedLists.testBit 0) .tCerts tl.trustedCertificates
  let s2 := addPhase s1 (tl.specifiedLists.testBit 1) .tCrls tl.trustedCrls
  let s3 := addPhase s2 (tl.specifiedLists.testBit 2) .iCerts tl.issuerCertificates
  addPhase s3 (tl.specifiedLists.testBit 3) .iCrls tl.issuerCrls

/-- `FileCertStore_getTrustList`: load each selected directory; unselected
    fields stay empty, the mask is echoed back. -/
def FileCertStore_getTrustList (s : CertStore) (mask : Nat) : TrustListDataType :=
  { specifiedLists := mask
    trustedCertificates := if mask.testBit 0 then s.trustedCertificates else []
    trustedCrls := if mask.testBit 1 then s.trustedCrls else []
    issuerCertificates := if mask.testBit 2 then s.issuerCertificates else []
    issuerCrls := if mask.testBit 3 then s.issuerCrls else [] }

/-- The per-list filtering step of `FileCertStore_removeFromTrustList`:
    when both the stored list and the input list are non-empty, keep the
    stored entries that are byte-equal to no input entry. -/
def removeFiltered (group input : List Bytes) : List Bytes :=
  if group.length > 0 && input.length > 0 then
    group.filter (fun c => !(input.contains c))
  else group

/-- `FileCertStore_removeFromTrustList`: load the full trust list, filter
    each of the four lists against the input (the input's mask is never
    consulted), then rewrite the whole store with `setTrustList` under
    `UA_TRUSTLISTMASKS_ALL = 15`. -/
def FileCertStore_removeFromTrustList (s : CertStore) (tl : TrustListDataType) : CertStore :=
  let t' := removeFiltered s.trustedCertificates tl.trustedCertificates
  let i' := removeFiltered s.issuerCertificates tl.issuerCertificates
  let tc' := removeFiltered s.trustedCrls tl.trustedCrls
  let ic' := removeFiltered s.issuerCrls tl.issuerCrls
  FileCertStore_setTrustList s
    { specifiedLists := 15, trustedCertificates := t', trustedCrls := tc'
      issuerCertificates := i', issuerCrls := ic' }

/-- `FileCertStore_addToRejectedList`: return unchanged when the certificate
    is already present by byte equality, otherwise write its file. -/
def addToRejectedList (s : CertStore) (c : Bytes) : CertStore :=
  if s.rejected.contains c then s else { s with rejected := s.rejected ++ [c] }

/-- `FileCertStore_getRejectedList`: list the rejected directory. -/
def FileCertStore_getRejectedList (s : CertStore) : List Bytes :=
  s.rejected

/-! ## De-duplication folds

`storeList` reduces to pure folds over the target directory; `dedupAcc`
is their common shape: append each item unless it is already accumulated
or blocked by the membership check. -/

/-- Fold a list into an accumulator, skipping items already present in the
    accumulator or blocked. -/
def dedupAcc (blocked : Bytes → Bool) (acc : List Bytes) (l : List Bytes) : List Bytes :=
  l.foldl (fun a c => if a.contains c || blocked c then a else a ++ [c]) acc

/-- First-occurrence de-duplication by byte equality. -/
def dedupKeepFirst (l : List Bytes) : List Bytes :=
  dedupAcc (fun _ => false) [] l

/-! ## Certificate verifier (`FileCertStore_verifyCertificate`, mbedTLS backend)

The mbedTLS primitives — X.509 parsing and chain verification — are external
collaborators; they are passed in as a `CryptoOracle`.  The control flow of
`FileCertStore_verifyCertificate` is embedded faithfully on top of them. -/

/-- The fields of a parsed X.509 certificate that the wrapper consults. -/
structure ParsedCert where
  issuerRaw : Bytes
  subjectRaw : Bytes
  certSignUsage : Bool
  crlSignUsage : Bool
  deriving DecidableEq, Repr

/-- The fields of a parsed CRL that the wrapper consults. -/
structure ParsedCrl where
  issuerRaw : Bytes
  version : Nat
  deriving DecidableEq, Repr

/-- The flag set produced by `mbedtls_x509_crt_verify_with_profile`. -/
structure VerifyFlags where
  notTrusted : Bool
  expired : Bool
  future : Bool
  revoked : Bool
  crlExpired : Bool
  deriving DecidableEq, Repr

/-- Result of one mbedTLS chain verification: the error indicator
    (`mbedErr != 0`) and the flag word. -/
structure ChainVerifyResult where
  err : Bool
  flags : VerifyFlags
  deriving DecidableEq, Repr

/-- The cryptographic externals used by the verifier wrapper:
    `verifyChain cand certs crls` stands for
    `mbedtls_x509_crt_verify_with_profile` of the candidate against the
    chain parsed from `certs` with the CRLs parsed from `crls`. -/
structure CryptoOracle where
  parseCert : Bytes → Option ParsedCert
  parseCrl : Bytes → Option ParsedCrl
  verifyChain : Bytes → List Bytes → List Bytes → ChainVerifyResult

/-- The parent test of the wrapper:
    `memcmp(child->issuer_raw.p, parent->subject_raw.p, parent->subject_raw.len) == 0`,
    i.e. the parent's subject is a byte prefix of the child's issuer. -/
def matchesIssuer (childIssuer : Bytes) (parent : ParsedCert) : Bool :=
  parent.subjectRaw.isPrefixOf childIssuer

/-- Scan a chain for the first certificate whose subject matches. -/
def findParent (chain : List ParsedCert) (childIssuer : Bytes) : Option ParsedCert :=
  chain.find? (fun p => matchesIssuer childIssuer p)

/-- Scan the CRLs for one with non-zero version whose issuer equals
    (length and bytes) the given subject. -/
def hasCrlFor (crls : List ParsedCrl) (subject : Bytes) : Bool :=
  crls.any (fun r => r.version != 0 && r.issuerRaw == subject)

/-- The tail of the verification (after the trust/revocation-unknown
    branches): the CA key-usage check, then translation of the
    remaining flags into a status code.  Only the not-trusted branch
    appends to the rejected list. -/
def verifyFinish (s : CertStore) (cert : Bytes) (rc : ParsedCert)
    (r : ChainVerifyResult) : StatusCode × CertStore :=
  if rc.certSignUsage && rc.crlSignUsage then
    (.badCertificateUseNotAllowed, addToRejectedList s cert)
  else if r.err then
    if r.flags.notTrusted then (.badCertificateUntrusted, addToRejectedList s cert)
    else if r.flags.future || r.flags.expired then (.badCertificateTimeInvalid, s)
    else if r.flags.revoked || r.flags.crlExpired then (.badCertificateRevoked, s)
    else (.badSecurityChecksFailed, s)
  else (.good, s)

/-- The middle section of `FileCertStore_verifyCertificate` for a candidate
    that parsed successfully: the self-trusted re-verification against the
    issuer chain and the two revocation-unknown checks API, then
    `verifyFinish` with the surviving error/flag word. -/
def verifyMid (o : CryptoOracle) (s : CertStore) (cert : Bytes)
    (issuerChainSrc : List Bytes) (rc : ParsedCert) : StatusCode × CertStore :=
  let trustedParsed := s.trustedCertificates.filterMap o.parseCert
  let issuersParsed := issuerChainSrc.filterMap o.parseCert
  let trustedCrlsParsed := s.trustedCrls.filterMap o.parseCrl
  let v1 := o.verifyChain cert s.trustedCertificates s.trustedCrls
  let trusted := v1.err && !v1.flags.expired && !v1.flags.future &&
                 s.trustedCertificates.contains cert
  if trusted && v1.err then
    let v2 := o.verifyChain cert issuerChainSrc s.issuerCrls
    if !v2.err then
      match findParent issuersParsed rc.issuerRaw with
      | some p =>
        let pUse := match findParent trustedParsed p.issuerRaw with
                    | some p2 => p2
                    | none => p
        if hasCrlFor trustedCrlsParsed pUse.subjectRaw then
          verifyFinish s cert rc v2
        else
          (.badCertificateIssuerRevocationUnknown, addToRejectedList s cert)
      | none => verifyFinish s cert rc v2
    else verifyFinish s cert rc v2
  else if !v1.err && !trusted then
    match findParent trustedParsed rc.issuerRaw with
    | some p =>
      if !(rc.subjectRaw.isPrefixOf rc.issuerRaw) then
        if hasCrlFor trustedCrlsParsed p.subjectRaw then
          verifyFinish s cert rc v1
        else
          (.badCertificateRevocationUnknown, addToRejectedList s cert)
      else verifyFinish s cert rc v1
    | none => verifyFinish s cert rc v1
  else verifyFinish s cert rc v1

/-- `FileCertStore_verifyCertificate`
    (ua_certificategroup_mbedtls.c, lines 171-430): reload the trust
    state merged with the supplied issuer certificates, accept outright on
    an entirely empty store, fail with `SecurityChecksFailed` when the
    candidate does not parse (without touching the rejected list), and
    otherwise run the chain checks. -/
def FileCertStore_verifyCertificate (o : CryptoOracle) (s : CertStore)
    (cert : Bytes) (issuerCertificates : List Bytes) : StatusCode × CertStore :=
  let issuerChainSrc := issuerCertificates ++ s.issuerCertificates
  if issuerChainSrc.any (fun c => (o.parseCert c).isNone) ||
     s.trustedCertificates.any (fun c => (o.parseCert c).isNone) ||
     s.trustedCrls.any (fun c => (o.parseCrl c).isNone) ||
     s.issuerCrls.any (fun c => (o.parseCrl c).isNone) then
    (.badInternalError, s)
  else if s.trustedCertificates.isEmpty && issuerChainSrc.isEmpty &&
          s.trustedCrls.isEmpty && s.issuerCrls.isEmpty then
    (.good, s)
  else
    match o.parseCert cert with
    | none => (.badSecurityChecksFailed, s)
    | some rc => verifyMid o s cert issuerChainSrc rc

/-! ## Server model (`src/server/ua_server_ns0_gds.c`)

The two first-class certificate groups, the per-group `UA_FileInfo` with its
open `UA_FileContext`s, and the GDS transaction.  The `UA_GDSTransaction`
type and its `init`/`clear`/`getCertificateGroup` operations are not part of
the sources; they are modelled from the spec (§3 Transaction, §4.4). -/

/-- The two supported certificate groups. -/
inductive GroupId where
  | application
  | userToken
  deriving DecidableEq, Repr

/-- `UA_FileContext`: one live OPEN over an encoded trust-list snapshot. -/
structure FileContext where
  file : Bytes
  fileHandle : Nat
  sessionId : Nat
  currentPos : Nat
  openFileMode : Nat
  deriving DecidableEq, Repr

/-- `UA_FileInfo`: the open-handle count and the open contexts of a group. -/
structure FileInfo where
  openCount : Nat
  fileContexts : List FileContext
  deriving DecidableEq, Repr

/-- The transaction state machine (`UA_GDSTRANSACIONSTATE_*`). -/
inductive TransactionState where
  | fresh
  | pending
  deriving DecidableEq, Repr

/-- Modelled from the spec: the `UA_GDSTransaction` record (not under src/);
    §3: `{state ∈ {FRESH, PENDING}, ownerSessionId, stagedGroups[],
    stagedCertUpdates[]}`.  A staged group is a copy-on-write clone of the
    affected certificate store, keyed by its group id; a staged certificate
    update carries `(typeId, cert, key)`. -/
structure GDSTransaction where
  state : TransactionState
  sessionId : Nat
  certGroups : List (GroupId × CertStore)
  certificateInfos : List (Nat × Bytes × Bytes)
  deriving DecidableEq, Repr

/-- The slice of `UA_Server` the dispatcher touches: the two live stores,
    the transaction, and the two `UA_FileInfoContext`s. -/
structure Server where
  secureChannelPKI : CertStore
  sessionPKI : CertStore
  transaction : GDSTransaction
  fileInfoApplication : FileInfo
  fileInfoUserToken : FileInfo
  deriving DecidableEq, Repr

/-- `getCertGroup`: the live store of a group. -/
def getCertGroup (srv : Server) : GroupId → CertStore
  | .application => srv.secureChannelPKI
  | .userToken => srv.sessionPKI

/-- Replace the live store of a group. -/
def setCertGroup (srv : Server) (g : GroupId) (s : CertStore) : Server :=
  match g with
  | .application => { srv with secureChannelPKI := s }
  | .userToken => { srv with sessionPKI := s }

/-- `getFileInfo`: the file info of a group. -/
def getFileInfo (srv : Server) : GroupId → FileInfo
  | .application => srv.fileInfoApplication
  | .userToken => srv.fileInfoUserToken

/-- Replace the file info of a group. -/
def setFileInfo (srv : Server) (g : GroupId) (fi : FileInfo) : Server :=
  match g with
  | .application => { srv with fileInfoApplication := fi }
  | .userToken => { srv with fileInfoUserToken := fi }

/-- Modelled from the spec: `UA_GDSTransaction_init` (not under src/);
    §4.4: a write-creating operation transitions the fresh transaction to
    PENDING and binds the owner session; no changes are staged yet. -/
def GDSTransaction_init (sessionId : Nat) : GDSTransaction :=
  { state := .pending, sessionId := sessionId, certGroups := [], certificateInfos := [] }

/-- Modelled from the spec: `UA_GDSTransaction_clear` (not under src/);
    §4.4 `abort()`: drop staged state, return to FRESH. -/
def GDSTransaction_clear : GDSTransaction :=
  { state := .fresh, sessionId := 0, certGroups := [], certificateInfos := [] }

/-- Modelled from the spec: `UA_GDSTransaction_getCertificateGroup` (not
    under src/); §4.4 `stageTrustListChange(group)`: return the writable
    clone of the group's store, creating it from the live store on first
    use. -/
def GDSTransaction_getCertificateGroup (t : GDSTransaction) (g : GroupId)
    (live : CertStore) : GDSTransaction × CertStore :=
  match t.certGroups.find? (fun p => p.1 == g) with
  | some p => (t, p.2)
  | none => ({ t with certGroups := t.certGroups ++ [(g, live)] }, live)

/-- Replace the staged store of a group inside the transaction. -/
def GDSTransaction_setCertificateGroup (t : GDSTransaction) (g : GroupId)
    (s : CertStore) : GDSTransaction :=
  { t with certGroups := t.certGroups.map (fun p => if p.1 == g then (g, s) else p) }

/-! ## Trust-list virtual file (dispatcher methods) -/

/-- `UA_OPENFILEMODE_READ`. -/
def modeRead : Nat := 1

/-- `UA_OPENFILEMODE_WRITE | UA_OPENFILEMODE_ERASEEXISTING`. -/
def modeWriteErase : Nat := 6

/-- `createFileHandleId`: the smallest non-zero id unused among the open
    contexts of one `FileInfo` (the scan from 1 upward). -/
def createFileHandleId (ctxs : List FileContext) : Nat :=
  let used := ctxs.map (fun c => c.fileHandle)
  (((List.range (used.length + 2)).filter
      (fun k => k != 0 && !(used.contains k))).headD 1)

/-- `getFileContext`: the open context with the given handle and session. -/
def getFileContext (fi : FileInfo) (sessionId fileHandle : Nat) : Option FileContext :=
  fi.fileContexts.find? (fun c => c.fileHandle == fileHandle && c.sessionId == sessionId)

/-- Update the (unique) context with the given handle and session. -/
def updateFileContext (fi : FileInfo) (sessionId fileHandle : Nat)
    (f : FileContext → FileContext) : FileInfo :=
  let upd := fun (c : FileContext) =>
    if c.fileHandle == fileHandle && c.sessionId == sessionId then f c else c
  { fi with fileContexts := fi.fileContexts.map upd }

/-- The tail of `openTrustList` shared by both modes: encode the live trust
    list into a snapshot, allocate a handle, push the context and bump
    `openCount`.  `enc` is the binary encoder `UA_encodeBinary`, an external
    collaborator. -/
def openTrustListFinish (enc : TrustListDataType → Bytes) (srv : Server)
    (sessionId : Nat) (g : GroupId) (mode : Nat) : StatusCode × Server × Option Nat :=
  let snapshot := enc (FileCertStore_getTrustList (getCertGroup srv g) 15)
  let fi := getFileInfo srv g
  let handle := createFileHandleId fi.fileContexts
  let ctx : FileContext :=
    { file := snapshot, fileHandle := handle, sessionId := sessionId
      currentPos := 0, openFileMode := mode }
  let fi' : FileInfo := { openCount := fi.openCount + 1, fileContexts := ctx :: fi.fileContexts }
  (.good, setFileInfo srv g fi', some handle)

/-- `openTrustList` (ua_server_ns0_gds.c, lines 621-711): refuse while a
    transaction is pending; WRITE|ERASE requires `openCount == 0` and begins
    a pending transaction bound to the caller; READ needs no further check;
    any other mode is `BadInvalidState`. -/
def openTrustList (enc : TrustListDataType → Bytes) (srv : Server)
    (sessionId : Nat) (g : GroupId) (mode : Nat) : StatusCode × Server × Option Nat :=
  if srv.transaction.state = .pending then (.badTransactionPending, srv, none)
  else if mode = modeWriteErase then
    if (getFileInfo srv g).openCount ≠ 0 then (.badNotWritable, srv, none)
    else
      openTrustListFinish enc
        { srv with transaction := GDSTransaction_init sessionId } sessionId g mode
  else if mode = modeRead then
    openTrustListFinish enc srv sessionId g mode
  else (.badInvalidState, srv, none)

/-- The reinterpretation of an `Int32` value as a `size_t`
    (the `(size_t)length` casts in `readTrustList`): two's complement. -/
def sizeTOfInt32 (x : Int) : Nat :=
  (x % (2 : Int) ^ 64).toNat

/-- `readTrustList` (ua_server_ns0_gds.c, lines 787-838): fail with
    `BadInvalidState` unless the handle was opened READ; clamp the
    `Int32` length through `size_t` casts against the snapshot length and
    the remaining bytes; copy that many bytes from the cursor and advance
    it; a non-positive clamped length returns the empty buffer without
    moving the cursor.  (The snapshot length fits `Int32` in every
    reachable state; theorems carry that bound.) -/
def readTrustList (srv : Server) (sessionId : Nat) (g : GroupId)
    (fileHandle : Nat) (length : Int) : StatusCode × Server × Bytes :=
  match getFileContext (getFileInfo srv g) sessionId fileHandle with
  | none => (.badInternalError, srv, [])
  | some ctx =>
    if ctx.openFileMode ≠ modeRead then (.badInvalidState, srv, [])
    else
      let n := ctx.file.length
      let l1 : Int := if sizeTOfInt32 length ≥ n then (n : Int) else length
      let l2 : Int := if sizeTOfInt32 l1 ≥ n - ctx.currentPos
                      then ((n - ctx.currentPos : Nat) : Int) else l1
      if 0 < l2 then
        let out := (ctx.file.drop ctx.currentPos).take l2.toNat
        let srv' := setFileInfo srv g
          (updateFileContext (getFileInfo srv g) sessionId fileHandle
            (fun c => { c with currentPos := c.currentPos + l2.toNat }))
        (.good, srv', out)
      else (.good, srv, [])

/-- `getPositionTrustList` (ua_server_ns0_gds.c, lines 977-1003). -/
def getPositionTrustList (srv : Server) (sessionId : Nat) (g : GroupId)
    (fileHandle : Nat) : StatusCode × Option Nat :=
  match getFileContext (getFileInfo srv g) sessionId fileHandle with
  | none => (.badInternalError, none)
  | some ctx => (.good, some ctx.currentPos)

/-- `setPositionTrustList` (ua_server_ns0_gds.c, lines 1005-1039): the
    declared-UInt64 position input is read through a `UA_UInt32` pointer
    (`position = *(UA_UInt32*)input[1].data`), which on a little-endian
    machine keeps only the low 32 bits; the surviving value is then clamped
    to the snapshot length. -/
def setPositionTrustList (srv : Server) (sessionId : Nat) (g : GroupId)
    (fileHandle : Nat) (position : Nat) : StatusCode × Server :=
  match getFileContext (getFileInfo srv g) sessionId fileHandle with
  | none => (.badInternalError, srv)
  | some ctx =>
    let pos32 := position % 2 ^ 32
    let newPos := if ctx.file.length < pos32 then ctx.file.length else pos32
    (.good, setFileInfo srv g
      (updateFileContext (getFileInfo srv g) sessionId fileHandle
        (fun c => { c with currentPos := newPos })))

/-! ## ApplyChanges and RemoveCertificate -/

/-- The trust-list half of `applyChangesToServer` (ua_server_ns0_gds.c,
    lines 1082-1173): for each staged group, read its full trust list and
    `setTrustList` it onto the live store.  The per-endpoint certificate
    updates touch security-policy state outside this model (external
    collaborators), and the channel sweep plus the final
    `UA_GDSTransaction_clear` run as a delayed callback after the method
    returns. -/
def applyChangesToServer (srv : Server) : StatusCode × Server :=
  (.good, srv.transaction.certGroups.foldl
    (fun sv p =>
      setCertGroup sv p.1
        (FileCertStore_setTrustList (getCertGroup sv p.1)
          (FileCertStore_getTrustList p.2 15)))
    srv)

/-- `applyChanges` (ua_server_ns0_gds.c, lines 1175-1200): `BadNothingToDo`
    on a fresh transaction, `BadUserAccessDenied` for a non-owner session,
    `BadInvalidState` while any affected group still has an open file
    handle, otherwise commit. -/
def applyChanges (srv : Server) (sessionId : Nat) : StatusCode × Server :=
  if srv.transaction.state = .fresh then (.badNothingToDo, srv)
  else if srv.transaction.sessionId ≠ sessionId then (.badUserAccessDenied, srv)
  else if srv.transaction.certGroups.any
            (fun p => (getFileInfo srv p.1).openCount > 0) then
    (.badInvalidState, srv)
  else applyChangesToServer srv

/-- `getRejectedList` method (ua_server_ns0_gds.c, lines 393-439): the
    concatenation of the rejected lists of the application group and the
    user-token group. -/
def getRejectedListMethod (srv : Server) : List Bytes :=
  FileCertStore_getRejectedList srv.secureChannelPKI ++
  FileCertStore_getRejectedList srv.sessionPKI

/-- `compareThumbprint` (ua_server_ns0_gds.c, lines 256-276): equal length
    and case-insensitive byte equality (ASCII upper-case folded to lower). -/
def lowerByte (b : Nat) : Nat :=
  if 65 ≤ b ∧ b ≤ 90 then b + 32 else b

/-- Case-insensitive thumbprint comparison. -/
def compareThumbprint (a b : Bytes) : Bool :=
  a.length == b.length &&
  (List.zip a b).all (fun p => lowerByte p.1 == lowerByte p.2)

/-- The certificate-utility externals used by `removeCertificate`:
    the SHA-1 thumbprint renderer, and the DN readers backing
    `getCertificateCrls`. -/
structure CertUtilOracle where
  thumbprintOf : Bytes → Bytes
  subjectNameOf : Bytes → Bytes
  crlIssuerNameOf : Bytes → Bytes

/-- Modelled from the spec: `getCertificateCrls` (not under src/); §3:
    CRLs are kept with the certificate set containing their issuer, matched
    by distinguished name, and S5: removal cascades to every CRL whose
    issuer matched the certificate's subject. -/
def getCertificateCrls (u : CertUtilOracle) (s : CertStore) (cert : Bytes)
    (isTrusted : Bool) : List Bytes :=
  (if isTrusted then s.trustedCrls else s.issuerCrls).filter
    (fun crl => u.crlIssuerNameOf crl == u.subjectNameOf cert)

/-- `removeCertificate` (ua_server_ns0_gds.c, lines 503-619): refuse unless
    the transaction is fresh, then *initialise a pending transaction*;
    refuse while the trust list is open; search the trusted or issuer
    certificates for the thumbprint; on a match, stage removal of the
    certificate together with its CRLs and commit immediately; when no
    certificate matches, return `BadInvalidArgument` — the error returns
    leave the just-created pending transaction in place. -/
def removeCertificate (u : CertUtilOracle) (srv : Server) (sessionId : Nat)
    (g : GroupId) (thumbprint : Bytes) (isTrusted : Bool) : StatusCode × Server :=
  if srv.transaction.state ≠ .fresh then (.badTransactionPending, srv)
  else
    let srv1 := { srv with transaction := GDSTransaction_init sessionId }
    if (getFileInfo srv1 g).openCount > 0 then (.badInvalidState, srv1)
    else
      let live := getCertGroup srv1 g
      let certificates := if isTrusted then live.trustedCertificates
                          else live.issuerCertificates
      let found := certificates.find?
        (fun cert => compareThumbprint thumbprint (u.thumbprintOf cert))
      let tg := GDSTransaction_getCertificateGroup srv1.transaction g live
      let srv2 := { srv1 with transaction := tg.1 }
      match found with
      | none => (.badInvalidArgument, srv2)
      | some cert =>
        let crls := getCertificateCrls u live cert isTrusted
        let list : TrustListDataType :=
          if isTrusted then
            { specifiedLists := 3, trustedCertificates := [cert], trustedCrls := crls
              issuerCertificates := [], issuerCrls := [] }
          else
            { specifiedLists := 12, trustedCertificates := [], trustedCrls := []
              issuerCertificates := [cert], issuerCrls := crls }
        let staged := FileCertStore_removeFromTrustList tg.2 list
        let srv3 := { srv2 with transaction :=
          GDSTransaction_setCertificateGroup srv2.transaction g staged }
        applyChangesToServer srv3

/-! ## Store lemmas -/

theorem getDir_setDir_same (s : CertStore) (d : TLDir) (l : List Bytes) :
    getDir (setDir s d l) d = l := by
  cases d <;> rfl

theorem getDir_setDir_ne (s : CertStore) {d d' : TLDir} (h : d ≠ d') (l : List Bytes) :
    getDir (setDir s d l) d' = getDir s d' := by
  cases d <;> cases d' <;> first | rfl | exact absurd rfl h

theorem setDir_getDir (s : CertStore) (d : TLDir) :
    setDir s d (getDir s d) = s := by
  cases d <;> rfl

theorem setDir_setDir (s : CertStore) (d : TLDir) (a b : List Bytes) :
    setDir (setDir s d a) d b = setDir s d b := by
  cases d <;> rfl

theorem rejected_setDir (s : CertStore) (d : TLDir) (l : List Bytes) :
    (setDir s d l).rejected = s.rejected := by
  cases d <;> rfl

theorem trustedCertificates_setDir_tCrls (s : CertStore) (l : List Bytes) :
    (setDir s .tCrls l).trustedCertificates = s.trustedCertificates := rfl

theorem check_setDir_tCrls (s : CertStore) (l : List Bytes) (c : Bytes) :
    checkCertificateInList (setDir s .tCrls l) c = checkCertificateInList s c := rfl

theorem check_setDir_iCrls (s : CertStore) (l : List Bytes) (c : Bytes) :
    checkCertificateInList (setDir s .iCrls l) c = checkCertificateInList s c := rfl

theorem storeList_nil (s : CertStore) (d : TLDir) : storeList s d [] = s := rfl

theorem storeList_cons (s : CertStore) (d : TLDir) (c : Bytes) (l : List Bytes) :
    storeList s d (c :: l) = storeList (storeStep s d c) d l := rfl

theorem dedupAcc_nil (b : Bytes → Bool) (acc : List Bytes) : dedupAcc b acc [] = acc := rfl

theorem dedupAcc_cons (b : Bytes → Bool) (acc : List Bytes) (c : Bytes) (l : List Bytes) :
    dedupAcc b acc (c :: l) =
      dedupAcc b (if acc.contains c || b c then acc else acc ++ [c]) l := rfl

/-- `storeList` into the trusted-certificates directory is the pure
    de-duplicating fold blocked by the (unchanging) issuer certificates. -/
theorem storeList_tCerts (s : CertStore) (l : List Bytes) :
    storeList s .tCerts l =
      setDir s .tCerts
        (dedupAcc (fun c => s.issuerCertificates.contains c) s.trustedCertificates l) := by
  induction l generalizing s with
  | nil => exact (setDir_getDir s .tCerts).symm
  | cons c l ih =>
    rw [storeList_cons, dedupAcc_cons]
    have hcond : (s.trustedCertificates.contains c ||
        (fun c => s.issuerCertificates.contains c) c) = checkCertificateInList s c := rfl
    rw [hcond]
    cases hchk : checkCertificateInList s c with
    | true =>
      rw [if_pos rfl]
      have hstep : storeStep s .tCerts c = s := by
        unfold storeStep; rw [if_pos hchk]
      rw [hstep, ih]
    | false =>
      rw [if_neg Bool.false_ne_true]
      have h1 : s.trustedCertificates.contains c = false :=
        (Bool.or_eq_false_iff.mp hchk).1
      have hstep : storeStep s .tCerts c =
          setDir s .tCerts (s.trustedCertificates ++ [c]) := by
        unfold storeStep
        rw [if_neg (by rw [hchk]; exact Bool.false_ne_true)]
        unfold writeByteStringToDir
        rw [show getDir s .tCerts = s.trustedCertificates from rfl,
            if_neg (by rw [h1]; exact Bool.false_ne_true)]
      rw [hstep, ih, setDir_setDir]
      rfl

/-- `storeList` into the issuer-certificates directory. -/
theorem storeList_iCerts (s : CertStore) (l : List Bytes) :
    storeList s .iCerts l =
      setDir s .iCerts
        (dedupAcc (fun c => s.trustedCertificates.contains c) s.issuerCertificates l) := by
  induction l generalizing s with
  | nil => exact (setDir_getDir s .iCerts).symm
  | cons c l ih =>
    rw [storeList_cons, dedupAcc_cons]
    have hcond : (s.issuerCertificates.contains c ||
        (fun c => s.trustedCertificates.contains c) c) = checkCertificateInList s c := by
      unfold checkCertificateInList
      exact Bool.or_comm _ _
    rw [hcond]
    cases hchk : checkCertificateInList s c with
    | true =>
      rw [if_pos rfl]
      have hstep : storeStep s .iCerts c = s := by
        unfold storeStep; rw [if_pos hchk]
      rw [hstep, ih]
    | false =>
      rw [if_neg Bool.false_ne_true]
      have h2 : s.issuerCertificates.contains c = false :=
        (Bool.or_eq_false_iff.mp hchk).2
      have hstep : storeStep s .iCerts c =
          setDir s .iCerts (s.issuerCertificates ++ [c]) := by
        unfold storeStep
        rw [if_neg (by rw [hchk]; exact Bool.false_ne_true)]
        unfold writeByteStringToDir
        rw [show getDir s .iCerts = s.issuerCertificates from rfl,
            if_neg (by rw [h2]; exact Bool.false_ne_true)]
      rw [hstep, ih, setDir_setDir]
      rfl

/-- `storeList` into the trusted-CRLs directory: blocked by the membership
    check over the certificate directories, which the CRL writes leave
    untouched; within the directory itself the content-derived file name
    de-duplicates. -/
theorem storeList_tCrls (s : CertStore) (l : List Bytes) :
    storeList s .tCrls l =
      setDir s .tCrls (dedupAcc (checkCertificateInList s) s.trustedCrls l) := by
  induction l generalizing s with
  | nil => exact (setDir_getDir s .tCrls).symm
  | cons c l ih =>
    rw [storeList_cons, dedupAcc_cons]
    cases hchk : checkCertificateInList s c with
    | true =>
      rw [if_pos (by simp)]
      have hstep : storeStep s .tCrls c = s := by
        unfold storeStep; rw [if_pos hchk]
      rw [hstep, ih]
    | false =>
      cases hc : s.trustedCrls.contains c with
      | true =>
        rw [if_pos (by simp)]
        have hstep : storeStep s .tCrls c = s := by
          unfold storeStep
          rw [if_neg (by rw [hchk]; exact Bool.false_ne_true)]
          unfold writeByteStringToDir
          rw [show getDir s .tCrls = s.trustedCrls from rfl, if_pos hc]
          exact setDir_getDir s .tCrls
        rw [hstep, ih]
      | false =>
        rw [if_neg (by simp)]
        have hstep : storeStep s .tCrls c =
            setDir s .tCrls (s.trustedCrls ++ [c]) := by
          unfold storeStep
          rw [if_neg (by rw [hchk]; exact Bool.false_ne_true)]
          unfold writeByteStringToDir
          rw [show getDir s .tCrls = s.trustedCrls from rfl,
              if_neg (by rw [hc]; exact Bool.false_ne_true)]
        rw [hstep, ih, setDir_setDir]
        rfl

/-- `storeList` into the issuer-CRLs directory. -/
theorem storeList_iCrls (s : CertStore) (l : List Bytes) :
    storeList s .iCrls l =
      setDir s .iCrls (dedupAcc (checkCertificateInList s) s.issuerCrls l) := by
  induction l generalizing s with
  | nil => exact (setDir_getDir s .iCrls).symm
  | cons c l ih =>
    rw [storeList_cons, dedupAcc_cons]
    cases hchk : checkCertificateInList s c with
    | true =>
      rw [if_pos (by simp)]
      have hstep : storeStep s .iCrls c = s := by
        unfold storeStep; rw [if_pos hchk]
      rw [hstep, ih]
    | false =>
      cases hc : s.issuerCrls.contains c with
      | true =>
        rw [if_pos (by simp)]
        have hstep : storeStep s .iCrls c = s := by
          unfold storeStep
          rw [if_neg (by rw [hchk]; exact Bool.false_ne_true)]
          unfold writeByteStringToDir
          rw [show getDir s .iCrls = s.issuerCrls from rfl, if_pos hc]
          exact setDir_getDir s .iCrls
        rw [hstep, ih]
      | false =>
        rw [if_neg (by simp)]
        have hstep : storeStep s .iCrls c =
            setDir s .iCrls (s.issuerCrls ++ [c]) := by
          unfold storeStep
          rw [if_neg (by rw [hchk]; exact Bool.false_ne_true)]
          unfold writeByteStringToDir
          rw [show getDir s .iCrls = s.issuerCrls from rfl,
              if_neg (by rw [hc]; exact Bool.false_ne_true)]
        rw [hstep, ih, setDir_setDir]
        rfl

/-! ## De-duplication lemmas -/

theorem contains_eq_false_of_not_mem {l : List Bytes} {c : Bytes} (h : c ∉ l) :
    l.contains c = false := by
  simpa using h

theorem not_mem_of_contains_eq_false {l : List Bytes} {c : Bytes}
    (h : l.contains c = false) : c ∉ l := by
  simpa using h

theorem dedupAcc_congr {b b' : Bytes → Bool} {acc l : List Bytes}
    (h : ∀ c ∈ l, b c = b' c) : dedupAcc b acc l = dedupAcc b' acc l := by
  induction l generalizing acc with
  | nil => rfl
  | cons c l ih =>
    rw [dedupAcc_cons, dedupAcc_cons, h c (List.mem_cons_self c l)]
    exact ih (fun x hx => h x (List.mem_cons_of_mem c hx))

theorem mem_of_mem_dedupAcc {b : Bytes → Bool} {acc l : List Bytes} {x : Bytes}
    (h : x ∈ dedupAcc b acc l) : x ∈ acc ∨ x ∈ l := by
  induction l generalizing acc with
  | nil => exact Or.inl h
  | cons c l ih =>
    rw [dedupAcc_cons] at h
    rcases ih h with h1 | h1
    · rcases Decidable.em ((acc.contains c || b c) = true) with hc | hc
      · rw [if_pos hc] at h1
        exact Or.inl h1
      · rw [if_neg hc] at h1
        rcases List.mem_append.mp h1 with h2 | h2
        · exact Or.inl h2
        · have : x = c := by simpa using h2
          exact Or.inr (this ▸ List.mem_cons_self c l)
    · exact Or.inr (List.mem_cons_of_mem c h1)

theorem dedupAcc_eq_append {b : Bytes → Bool} {l : List Bytes} :
    ∀ {acc : List Bytes}, l.Nodup →
    (∀ c ∈ l, acc.contains c = false ∧ b c = false) →
    dedupAcc b acc l = acc ++ l := by
  induction l with
  | nil => intro acc _ _; simp [dedupAcc_nil]
  | cons c l ih =>
    intro acc hnd h
    have hc := h c (List.mem_cons_self c l)
    have hcond : (acc.contains c || b c) = false := by
      rw [hc.1, hc.2]; rfl
    rw [dedupAcc_cons, if_neg (by rw [hcond]; exact Bool.false_ne_true)]
    have hcl : c ∉ l := (List.nodup_cons.mp hnd).1
    have hstep : dedupAcc b (acc ++ [c]) l = (acc ++ [c]) ++ l := by
      refine ih (List.nodup_cons.mp hnd).2 ?_
      intro x hx
      refine ⟨?_, (h x (List.mem_cons_of_mem c hx)).2⟩
      have hxa : x ∉ acc := not_mem_of_contains_eq_false (h x (List.mem_cons_of_mem c hx)).1
      have hxc : x ≠ c := fun e => hcl (e ▸ hx)
      apply contains_eq_false_of_not_mem
      intro hmem
      rcases List.mem_append.mp hmem with h2 | h2
      · exact hxa h2
      · exact hxc (by simpa using h2)
    rw [hstep, List.append_assoc]
    rfl

theorem dedupKeepFirst_eq_self {l : List Bytes} (h : l.Nodup) :
    dedupKeepFirst l = l := by
  unfold dedupKeepFirst
  have e := @dedupAcc_eq_append (fun _ => false) l [] h (fun c _ => ⟨rfl, rfl⟩)
  rw [e]
  rfl

theorem mem_dedupKeepFirst {l : List Bytes} {x : Bytes}
    (h : x ∈ dedupKeepFirst l) : x ∈ l := by
  rcases mem_of_mem_dedupAcc h with h1 | h1
  · exact absurd h1 (List.not_mem_nil x)
  · exact h1

/-! ## setTrustList characterization -/

/-- Under the disjointness conditions that keep the cross-list membership
    check of `storeList` out of the way, `setTrustList` with all four lists
    selected replaces the four directories with the first-occurrence
    de-duplications of the inputs.  The conditions reflect exactly the
    interferences the code has: new trusted certificates and CRLs are
    checked against the old issuer directory (not yet cleared), and every
    list is checked against the new trusted certificates. -/
theorem setTrustList_all (s : CertStore) (t tc i ic : List Bytes)
    (htI : ∀ c ∈ t, c ∉ s.issuerCertificates)
    (htcI : ∀ c ∈ tc, c ∉ s.issuerCertificates)
    (htct : ∀ c ∈ tc, c ∉ t)
    (hit : ∀ c ∈ i, c ∉ t)
    (hict : ∀ c ∈ ic, c ∉ t)
    (hici : ∀ c ∈ ic, c ∉ i) :
    FileCertStore_setTrustList s
      { specifiedLists := 15, trustedCertificates := t, trustedCrls := tc
        issuerCertificates := i, issuerCrls := ic } =
      { trustedCertificates := dedupKeepFirst t, trustedCrls := dedupKeepFirst tc
        issuerCertificates := dedupKeepFirst i, issuerCrls := dedupKeepFirst ic
        rejected := s.rejected } := by
  have b0 : Nat.testBit 15 0 = true := by decide
  have b1 : Nat.testBit 15 1 = true := by decide
  have b2 : Nat.testBit 15 2 = true := by decide
  have b3 : Nat.testBit 15 3 = true := by decide
  show setPhase (setPhase (setPhase (setPhase s (Nat.testBit 15 0) .tCerts t)
      (Nat.testBit 15 1) .tCrls tc) (Nat.testBit 15 2) .iCerts i)
      (Nat.testBit 15 3) .iCrls ic = _
  rw [b0, b1, b2, b3]
  show newList (newList (newList (newList s .tCerts t) .tCrls tc) .iCerts i) .iCrls ic = _
  have h1 : newList s .tCerts t = setDir s .tCerts (dedupKeepFirst t) := by
    unfold newList
    rw [storeList_tCerts, setDir_setDir]
    congr 1
    show dedupAcc (fun c => s.issuerCertificates.contains c) [] t = dedupKeepFirst t
    unfold dedupKeepFirst
    exact dedupAcc_congr (fun c hc => contains_eq_false_of_not_mem (htI c hc))
  rw [h1]
  set s1 : CertStore := setDir s .tCerts (dedupKeepFirst t) with hs1
  have hs1t : s1.trustedCertificates = dedupKeepFirst t := rfl
  have hs1i : s1.issuerCertificates = s.issuerCertificates := rfl
  have h2 : newList s1 .tCrls tc = setDir s1 .tCrls (dedupKeepFirst tc) := by
    unfold newList
    rw [storeList_tCrls, setDir_setDir]
    congr 1
    show dedupAcc (checkCertificateInList s1) [] tc = dedupKeepFirst tc
    unfold dedupKeepFirst
    refine dedupAcc_congr (fun c hc => ?_)
    unfold checkCertificateInList
    rw [hs1t, hs1i]
    rw [contains_eq_false_of_not_mem (fun hm => htct c hc (mem_dedupKeepFirst hm)),
        contains_eq_false_of_not_mem (htcI c hc)]
    rfl
  rw [h2]
  set s2 : CertStore := setDir s1 .tCrls (dedupKeepFirst tc) with hs2
  have hs2t : s2.trustedCertificates = dedupKeepFirst t := rfl
  have hs2i : s2.issuerCertificates = s.issuerCertificates := rfl
  have h3 : newList s2 .iCerts i = setDir s2 .iCerts (dedupKeepFirst i) := by
    unfold newList
    rw [storeList_iCerts, setDir_setDir]
    congr 1
    show dedupAcc (fun c => s2.trustedCertificates.contains c) [] i = dedupKeepFirst i
    unfold dedupKeepFirst
    refine dedupAcc_congr (fun c hc => ?_)
    rw [hs2t]
    exact contains_eq_false_of_not_mem (fun hm => hit c hc (mem_dedupKeepFirst hm))
  rw [h3]
  set s3 : CertStore := setDir s2 .iCerts (dedupKeepFirst i) with hs3
  have hs3t : s3.trustedCertificates = dedupKeepFirst t := rfl
  have hs3i : s3.issuerCertificates = dedupKeepFirst i := rfl
  have h4 : newList s3 .iCrls ic = setDir s3 .iCrls (dedupKeepFirst ic) := by
    unfold newList
    rw [storeList_iCrls, setDir_setDir]
    congr 1
    show dedupAcc (checkCertificateInList s3) [] ic = dedupKeepFirst ic
    unfold dedupKeepFirst
    refine dedupAcc_congr (fun c hc => ?_)
    unfold checkCertificateInList
    rw [hs3t, hs3i]
    rw [contains_eq_false_of_not_mem (fun hm => hict c hc (mem_dedupKeepFirst hm)),
        contains_eq_false_of_not_mem (fun hm => hici c hc (mem_dedupKeepFirst hm))]
    rfl
  rw [h4]
  rfl

/-! ## addToTrustList idempotence machinery -/

theorem contains_eq_true_of_mem {l : List Bytes} {c : Bytes} (h : c ∈ l) :
    l.contains c = true := by
  simpa using h

theorem check_iff {s : CertStore} {c : Bytes} :
    checkCertificateInList s c = true ↔
      c ∈ s.trustedCertificates ∨ c ∈ s.issuerCertificates := by
  unfold checkCertificateInList
  simp

theorem storeStep_mem {s : CertStore} {d : TLDir} {c : Bytes} {d' : TLDir} {x : Bytes}
    (h : x ∈ getDir s d') : x ∈ getDir (storeStep s d c) d' := by
  unfold storeStep
  rcases Decidable.em (checkCertificateInList s c = true) with hc | hc
  · rw [if_pos hc]; exact h
  · rw [if_neg hc]
    rcases Decidable.em (d = d') with he | he
    · subst he
      rw [getDir_setDir_same]
      unfold writeByteStringToDir
      rcases Decidable.em ((getDir s d).contains c = true) with h2 | h2
      · rw [if_pos h2]; exact h
      · rw [if_neg h2]; exact List.mem_append.mpr (Or.inl h)
    · rw [getDir_setDir_ne _ he]; exact h

theorem storeList_mem {s : CertStore} {d : TLDir} {l : List Bytes} {d' : TLDir} {x : Bytes}
    (h : x ∈ getDir s d') : x ∈ getDir (storeList s d l) d' := by
  induction l generalizing s with
  | nil => exact h
  | cons c l ih => exact ih (storeStep_mem h)

theorem check_mono_storeList {s : CertStore} {d : TLDir} {l : List Bytes} {c : Bytes}
    (h : checkCertificateInList s c = true) :
    checkCertificateInList (storeList s d l) c = true := by
  rcases check_iff.mp h with h1 | h1
  · exact check_iff.mpr (Or.inl (@storeList_mem s d l .tCerts c h1))
  · exact check_iff.mpr (Or.inr (@storeList_mem s d l .iCerts c h1))

theorem storeStep_covers (s : CertStore) (d : TLDir) (c : Bytes) :
    checkCertificateInList (storeStep s d c) c = true ∨ c ∈ getDir (storeStep s d c) d := by
  unfold storeStep
  rcases Decidable.em (checkCertificateInList s c = true) with hc | hc
  · rw [if_pos hc]; exact Or.inl hc
  · rw [if_neg hc]
    right
    rw [getDir_setDir_same]
    unfold writeByteStringToDir
    rcases Decidable.em ((getDir s d).contains c = true) with h2 | h2
    · rw [if_pos h2]; simpa using h2
    · rw [if_neg h2]; exact List.mem_append.mpr (Or.inr (by simp))

theorem storeList_covers {s : CertStore} {d : TLDir} {l : List Bytes} {c : Bytes}
    (h : c ∈ l) :
    checkCertificateInList (storeList s d l) c = true ∨ c ∈ getDir (storeList s d l) d := by
  induction l generalizing s with
  | nil => cases h
  | cons a l ih =>
    rcases List.mem_cons.mp h with he | hm
    · subst he
      rcases storeStep_covers s d c with h1 | h1
      · exact Or.inl (check_mono_storeList (s := storeStep s d c) (l := l) h1)
      · exact Or.inr (storeList_mem (s := storeStep s d c) (l := l) h1)
    · exact ih hm

theorem storeStep_id {s : CertStore} {d : TLDir} {c : Bytes}
    (h : checkCertificateInList s c = true ∨ c ∈ getDir s d) : storeStep s d c = s := by
  unfold storeStep
  rcases Decidable.em (checkCertificateInList s c = true) with hc | hc
  · rw [if_pos hc]
  · rw [if_neg hc]
    rcases h with h | h
    · exact absurd h hc
    · unfold writeByteStringToDir
      rw [if_pos (contains_eq_true_of_mem h)]
      exact setDir_getDir s d

theorem storeList_id {s : CertStore} {d : TLDir} :
    ∀ {l : List Bytes},
    (∀ c ∈ l, checkCertificateInList s c = true ∨ c ∈ getDir s d) →
    storeList s d l = s := by
  intro l
  induction l with
  | nil => intro _; rfl
  | cons c l ih =>
    intro h
    rw [storeList_cons, storeStep_id (h c (List.mem_cons_self c l))]
    exact ih (fun x hx => h x (List.mem_cons_of_mem c hx))

theorem addPhase_mem {s : CertStore} {b : Bool} {d : TLDir} {l : List Bytes}
    {d' : TLDir} {x : Bytes} (h : x ∈ getDir s d') : x ∈ getDir (addPhase s b d l) d' := by
  cases b
  · exact h
  · exact storeList_mem h

theorem addPhase_check {s : CertStore} {b : Bool} {d : TLDir} {l : List Bytes} {c : Bytes}
    (h : checkCertificateInList s c = true) :
    checkCertificateInList (addPhase s b d l) c = true := by
  cases b
  · exact h
  · exact check_mono_storeList h

theorem addPhase_covers {s : CertStore} {d : TLDir} {l : List Bytes} {c : Bytes}
    (h : c ∈ l) :
    checkCertificateInList (addPhase s true d l) c = true ∨
      c ∈ getDir (addPhase s true d l) d :=
  storeList_covers h

theorem addPhase_id {s : CertStore} {b : Bool} {d : TLDir} {l : List Bytes}
    (h : b = true → ∀ c ∈ l, checkCertificateInList s c = true ∨ c ∈ getDir s d) :
    addPhase s b d l = s := by
  cases b
  · rfl
  · exact storeList_id (h rfl)

/-- Idempotence of the four-phase `storeList` pipeline: after one run every
    input item is either caught by the membership check or already in its
    target directory, so a second run changes nothing. -/
theorem fourPhase_idem (s s4 : CertStore) (b0 b1 b2 b3 : Bool)
    (t tc i ic : List Bytes)
    (hs4 : s4 = addPhase (addPhase (addPhase (addPhase s b0 .tCerts t)
              b1 .tCrls tc) b2 .iCerts i) b3 .iCrls ic) :
    addPhase (addPhase (addPhase (addPhase s4 b0 .tCerts t)
      b1 .tCrls tc) b2 .iCerts i) b3 .iCrls ic = s4 := by
  have F0 : b0 = true → ∀ c ∈ t,
      checkCertificateInList s4 c = true ∨ c ∈ getDir s4 .tCerts := by
    intro hb c hc
    subst hs4; subst hb
    rcases addPhase_covers (s := s) (d := .tCerts) hc with h | h
    · exact Or.inl (addPhase_check (addPhase_check (addPhase_check h)))
    · exact Or.inr (addPhase_mem (addPhase_mem (addPhase_mem h)))
  have F1 : b1 = true → ∀ c ∈ tc,
      checkCertificateInList s4 c = true ∨ c ∈ getDir s4 .tCrls := by
    intro hb c hc
    subst hs4; subst hb
    rcases addPhase_covers (s := addPhase s b0 .tCerts t) (d := .tCrls) hc with h | h
    · exact Or.inl (addPhase_check (addPhase_check h))
    · exact Or.inr (addPhase_mem (addPhase_mem h))
  have F2 : b2 = true → ∀ c ∈ i,
      checkCertificateInList s4 c = true ∨ c ∈ getDir s4 .iCerts := by
    intro hb c hc
    subst hs4; subst hb
    rcases addPhase_covers (s := addPhase (addPhase s b0 .tCerts t) b1 .tCrls tc)
        (d := .iCerts) hc with h | h
    · exact Or.inl (addPhase_check h)
    · exact Or.inr (addPhase_mem h)
  have F3 : b3 = true → ∀ c ∈ ic,
      checkCertificateInList s4 c = true ∨ c ∈ getDir s4 .iCrls := by
    intro hb c hc
    subst hs4; subst hb
    exact addPhase_covers
      (s := addPhase (addPhase (addPhase s b0 .tCerts t) b1 .tCrls tc) b2 .iCerts i)
      (d := .iCrls) hc
  rw [addPhase_id F0, addPhase_id F1, addPhase_id F2, addPhase_id F3]

/-! ## Well-formedness of a store -/

/-- Each directory is duplicate-free (a directory cannot hold two files of
    the same name, and file names are content-determined). -/
def storeNodup (s : CertStore) : Prop :=
  s.trustedCertificates.Nodup ∧ s.trustedCrls.Nodup ∧
  s.issuerCertificates.Nodup ∧ s.issuerCrls.Nodup

/-- The cross-directory byte-disjointness that every state reachable through
    the store API maintains (`storeList` refuses to duplicate a byte string
    across the lists it checks). -/
def storeSeparated (s : CertStore) : Prop :=
  (∀ c ∈ s.trustedCertificates, c ∉ s.issuerCertificates) ∧
  (∀ c ∈ s.trustedCrls, c ∉ s.trustedCertificates) ∧
  (∀ c ∈ s.trustedCrls, c ∉ s.issuerCertificates) ∧
  (∀ c ∈ s.issuerCrls, c ∉ s.trustedCertificates) ∧
  (∀ c ∈ s.issuerCrls, c ∉ s.issuerCertificates)

theorem removeFiltered_of_absent {g i : List Bytes} (h : ∀ c ∈ i, c ∉ g) :
    removeFiltered g i = g := by
  unfold removeFiltered
  rcases Decidable.em ((decide (g.length > 0) && decide (i.length > 0)) = true) with hc | hc
  · rw [if_pos hc]
    refine List.filter_eq_self.mpr (fun a ha => ?_)
    have hai : a ∉ i := fun hmem => h a hmem ha
    simpa using hai
  · rw [if_neg hc]

/-! ## Claim C3: set/get round-trip -/

/-- C3 counterexample: from the empty store, `setTrustList` of a trust list
    whose trusted and issuer certificate lists share the byte string `[0]`
    loses the issuer copy — `storeList` skips it because the membership check
    finds it among the just-written trusted certificates — so the read-back
    issuer list is empty rather than the de-duplicated input `[[0]]`. -/
theorem claim_C3_counterexample :
    ¬ ((FileCertStore_getTrustList
          (FileCertStore_setTrustList
            { trustedCertificates := [], trustedCrls := [], issuerCertificates := [],
              issuerCrls := [], rejected := [] }
            { specifiedLists := 15, trustedCertificates := [[0]], trustedCrls := [],
              issuerCertificates := [[0]], issuerCrls := [] }) 15).issuerCertificates =
        dedupKeepFirst [[0]]) := by
  decide

/-- C3 (amended): `getTrustList` after `setTrustList` of X with all four
    lists selected returns exactly the four lists of X de-duplicated by byte
    equality, provided no item of X occurs in a second list of X and no
    trusted certificate or trusted CRL of X is byte-equal to an issuer
    certificate already in the store. -/
theorem claim_C3_set_get_roundTrip (s : CertStore) (t tc i ic : List Bytes)
    (htI : ∀ c ∈ t, c ∉ s.issuerCertificates)
    (htcI : ∀ c ∈ tc, c ∉ s.issuerCertificates)
    (htct : ∀ c ∈ tc, c ∉ t)
    (hit : ∀ c ∈ i, c ∉ t)
    (hict : ∀ c ∈ ic, c ∉ t)
    (hici : ∀ c ∈ ic, c ∉ i) :
    FileCertStore_getTrustList
      (FileCertStore_setTrustList s
        { specifiedLists := 15, trustedCertificates := t, trustedCrls := tc
          issuerCertificates := i, issuerCrls := ic }) 15 =
      { specifiedLists := 15, trustedCertificates := dedupKeepFirst t
        trustedCrls := dedupKeepFirst tc, issuerCertificates := dedupKeepFirst i
        issuerCrls := dedupKeepFirst ic } := by
  rw [setTrustList_all s t tc i ic htI htcI htct hit hict hici]
  have b0 : Nat.testBit 15 0 = true := by decide
  have b1 : Nat.testBit 15 1 = true := by decide
  have b2 : Nat.testBit 15 2 = true := by decide
  have b3 : Nat.testBit 15 3 = true := by decide
  unfold FileCertStore_getTrustList
  rw [b0, b1, b2, b3]
  rfl

/-- C3 witness: a concrete round-trip exercising the amended theorem, with
    an in-list duplicate removed by de-duplication and a previously stored
    disjoint state replaced. -/
theorem claim_C3_witness :
    FileCertStore_getTrustList
      (FileCertStore_setTrustList
        { trustedCertificates := [[7]], trustedCrls := [], issuerCertificates := [[8]],
          issuerCrls := [], rejected := [] }
        { specifiedLists := 15, trustedCertificates := [[1], [1], [2]], trustedCrls := [[3]]
          issuerCertificates := [[4]], issuerCrls := [[5]] }) 15 =
      { specifiedLists := 15, trustedCertificates := [[1], [2]], trustedCrls := [[3]]
        issuerCertificates := [[4]], issuerCrls := [[5]] } :=
  claim_C3_set_get_roundTrip _ _ _ _ _ (by decide) (by decide) (by decide)
    (by decide) (by decide) (by decide)

/-! ## Claim C4: addToTrustList idempotence -/

/-- C4: `addToTrustList` is idempotent: applying the same input twice leaves
    the store — all four sub-lists, including the CRL lists — in the same
    state as applying it once; items already present by byte equality are
    skipped (certificates by the membership check, CRLs by the
    content-derived file name). -/
theorem claim_C4_addToTrustList_idem (s : CertStore) (tl : TrustListDataType) :
    FileCertStore_addToTrustList (FileCertStore_addToTrustList s tl) tl =
      FileCertStore_addToTrustList s tl :=
  fourPhase_idem s (FileCertStore_addToTrustList s tl)
    (tl.specifiedLists.testBit 0) (tl.specifiedLists.testBit 1)
    (tl.specifiedLists.testBit 2) (tl.specifiedLists.testBit 3)
    tl.trustedCertificates tl.trustedCrls tl.issuerCertificates tl.issuerCrls rfl

/-! ## Claim C5: removeFromTrustList of absent items -/

/-- C5 counterexample: in a store whose trusted and issuer certificate
    directories both hold `[0]`, removing an absent item `[1]` is not a
    no-op: the unconditional `setTrustList` rewrite at the end of
    `removeFromTrustList` drops the trusted copy of `[0]` (the membership
    check finds it among the still-present issuer certificates). -/
theorem claim_C5_counterexample :
    ¬ (FileCertStore_removeFromTrustList
        { trustedCertificates := [[0]], trustedCrls := [], issuerCertificates := [[0]],
          issuerCrls := [], rejected := [] }
        { specifiedLists := 1, trustedCertificates := [[1]], trustedCrls := [],
          issuerCertificates := [], issuerCrls := [] } =
       { trustedCertificates := [[0]], trustedCrls := [], issuerCertificates := [[0]],
         issuerCrls := [], rejected := [] }) := by
  decide

/-- C5 (amended): for every well-formed store state — duplicate-free
    directories that are pairwise byte-disjoint, as every state reachable
    through the store API is — `removeFromTrustList` of items not present in
    the store succeeds and leaves all four sub-lists unchanged. -/
theorem claim_C5_remove_absent_noop (s : CertStore) (tl : TrustListDataType)
    (hnod : storeNodup s) (hsep : storeSeparated s)
    (habs1 : ∀ c ∈ tl.trustedCertificates, c ∉ s.trustedCertificates)
    (habs2 : ∀ c ∈ tl.trustedCrls, c ∉ s.trustedCrls)
    (habs3 : ∀ c ∈ tl.issuerCertificates, c ∉ s.issuerCertificates)
    (habs4 : ∀ c ∈ tl.issuerCrls, c ∉ s.issuerCrls) :
    FileCertStore_removeFromTrustList s tl = s := by
  unfold FileCertStore_removeFromTrustList
  rw [removeFiltered_of_absent habs1, removeFiltered_of_absent habs2,
      removeFiltered_of_absent habs3, removeFiltered_of_absent habs4]
  rw [setTrustList_all s _ _ _ _ hsep.1 hsep.2.2.1 hsep.2.1
      (fun c hc hmem => hsep.1 c hmem hc) hsep.2.2.2.1 hsep.2.2.2.2]
  rw [dedupKeepFirst_eq_self hnod.1, dedupKeepFirst_eq_self hnod.2.1,
      dedupKeepFirst_eq_self hnod.2.2.1, dedupKeepFirst_eq_self hnod.2.2.2]

/-- C5 witness: removing an absent item from a concrete well-formed store
    leaves it untouched. -/
theorem claim_C5_witness :
    FileCertStore_removeFromTrustList
      { trustedCertificates := [[1]], trustedCrls := [[2]], issuerCertificates := [[3]],
        issuerCrls := [[4]], rejected := [] }
      { specifiedLists := 1, trustedCertificates := [[9]], trustedCrls := [[9]],
        issuerCertificates := [], issuerCrls := [] } =
      { trustedCertificates := [[1]], trustedCrls := [[2]], issuerCertificates := [[3]],
        issuerCrls := [[4]], rejected := [] } :=
  claim_C5_remove_absent_noop _ _
    ⟨by decide, by decide, by decide, by decide⟩
    ⟨by decide, by decide, by decide, by decide, by decide⟩
    (by decide) (by decide) (by decide) (by decide)

/-! ## Concrete instances for counterexamples and witnesses -/

/-- The empty certificate store. -/
def emptyCertStore : CertStore :=
  { trustedCertificates := [], trustedCrls := [], issuerCertificates := []
    issuerCrls := [], rejected := [] }

/-- A store holding the single trusted certificate `[0]`. -/
def exStoreTrusted0 : CertStore :=
  { trustedCertificates := [[0]], trustedCrls := [], issuerCertificates := []
    issuerCrls := [], rejected := [] }

/-- A crypto oracle under which only the byte string `[0]` parses as a
    certificate; chain verification reports not-trusted. -/
def exOracleParseFail : CryptoOracle :=
  { parseCert := fun b => if b = [0] then
      some { issuerRaw := [], subjectRaw := [9], certSignUsage := false
             crlSignUsage := false } else none
    parseCrl := fun _ => some { issuerRaw := [], version := 1 }
    verifyChain := fun _ _ _ =>
      { err := true
        flags := { notTrusted := true, expired := false, future := false
                   revoked := false, crlExpired := false } } }

/-- A crypto oracle under which every byte string parses and chain
    verification reports not-trusted. -/
def exOracleUntrusted : CryptoOracle :=
  { parseCert := fun _ =>
      some { issuerRaw := [], subjectRaw := [9], certSignUsage := false
             crlSignUsage := false }
    parseCrl := fun _ => some { issuerRaw := [], version := 1 }
    verifyChain := fun _ _ _ =>
      { err := true
        flags := { notTrusted := true, expired := false, future := false
                   revoked := false, crlExpired := false } } }

/-- A server with empty stores, a fresh transaction and no open files. -/
def emptyServer : Server :=
  { secureChannelPKI := emptyCertStore, sessionPKI := emptyCertStore
    transaction := GDSTransaction_clear
    fileInfoApplication := { openCount := 0, fileContexts := [] }
    fileInfoUserToken := { openCount := 0, fileContexts := [] } }

/-! ## Claim C6: rejected-list accounting of the verifier -/

theorem verifyFinish_spec (s : CertStore) (cert : Bytes) (rc : ParsedCert)
    (r : ChainVerifyResult) :
    (((verifyFinish s cert rc r).1 = .badCertificateUntrusted ∨
      (verifyFinish s cert rc r).1 = .badCertificateRevocationUnknown ∨
      (verifyFinish s cert rc r).1 = .badCertificateIssuerRevocationUnknown ∨
      (verifyFinish s cert rc r).1 = .badCertificateUseNotAllowed) →
      (verifyFinish s cert rc r).2 = addToRejectedList s cert) ∧
    (((verifyFinish s cert rc r).1 = .badCertificateTimeInvalid ∨
      (verifyFinish s cert rc r).1 = .badCertificateRevoked ∨
      (verifyFinish s cert rc r).1 = .badSecurityChecksFailed) →
      (verifyFinish s cert rc r).2 = s) := by
  unfold verifyFinish
  split_ifs <;> constructor <;> intro h <;> simp_all

theorem verifyMid_spec (o : CryptoOracle) (s : CertStore) (cert : Bytes)
    (chainSrc : List Bytes) (rc : ParsedCert) :
    (((verifyMid o s cert chainSrc rc).1 = .badCertificateUntrusted ∨
      (verifyMid o s cert chainSrc rc).1 = .badCertificateRevocationUnknown ∨
      (verifyMid o s cert chainSrc rc).1 = .badCertificateIssuerRevocationUnknown ∨
      (verifyMid o s cert chainSrc rc).1 = .badCertificateUseNotAllowed) →
      (verifyMid o s cert chainSrc rc).2 = addToRejectedList s cert) ∧
    (((verifyMid o s cert chainSrc rc).1 = .badCertificateTimeInvalid ∨
      (verifyMid o s cert chainSrc rc).1 = .badCertificateRevoked ∨
      (verifyMid o s cert chainSrc rc).1 = .badSecurityChecksFailed) →
      (verifyMid o s cert chainSrc rc).2 = s) := by
  simp only [verifyMid]
  repeat' split
  all_goals first
    | exact verifyFinish_spec _ _ _ _
    | (constructor <;> intro h <;> simp_all)

/-- C6 counterexample: with a non-empty store and a candidate that fails to
    parse, verification rejects with `SecurityChecksFailed` without touching
    the rejected list — contradicting the claim that every rejection status
    appends the candidate. -/
theorem claim_C6_counterexample :
    (FileCertStore_verifyCertificate exOracleParseFail exStoreTrusted0 [9] []).1 =
      .badSecurityChecksFailed ∧
    ¬ ([9] ∈ (FileCertStore_verifyCertificate exOracleParseFail exStoreTrusted0
        [9] []).2.rejected) := by
  decide

/-- C6 (amended): whenever verification returns `Untrusted`,
    `RevocationUnknown`, `IssuerRevocationUnknown` or `UseNotAllowed`, the
    candidate is appended to the group's rejected list (de-duplicated by
    byte equality) before the call returns; on `TimeInvalid`, `Revoked` and
    `SecurityChecksFailed` returns the store — the rejected list included —
    is left untouched. -/
theorem claim_C6_rejected_accounting (o : CryptoOracle) (s : CertStore)
    (cert : Bytes) (issuers : List Bytes) :
    (((FileCertStore_verifyCertificate o s cert issuers).1 = .badCertificateUntrusted ∨
      (FileCertStore_verifyCertificate o s cert issuers).1 = .badCertificateRevocationUnknown ∨
      (FileCertStore_verifyCertificate o s cert issuers).1 = .badCertificateIssuerRevocationUnknown ∨
      (FileCertStore_verifyCertificate o s cert issuers).1 = .badCertificateUseNotAllowed) →
      (FileCertStore_verifyCertificate o s cert issuers).2 = addToRejectedList s cert) ∧
    (((FileCertStore_verifyCertificate o s cert issuers).1 = .badCertificateTimeInvalid ∨
      (FileCertStore_verifyCertificate o s cert issuers).1 = .badCertificateRevoked ∨
      (FileCertStore_verifyCertificate o s cert issuers).1 = .badSecurityChecksFailed) →
      (FileCertStore_verifyCertificate o s cert issuers).2 = s) := by
  simp only [FileCertStore_verifyCertificate]
  split_ifs
  · constructor <;> intro h <;> simp_all
  · constructor <;> intro h <;> simp_all
  · rcases hpc : o.parseCert cert with _ | rc
    · simp only [hpc]
      constructor <;> intro h <;> simp_all
    · simp only [hpc]
      exact verifyMid_spec o s cert _ rc

/-- C6 witness: a concrete not-trusted rejection appends the candidate. -/
theorem claim_C6_witness :
    (FileCertStore_verifyCertificate exOracleUntrusted exStoreTrusted0 [2] []).2 =
      addToRejectedList exStoreTrusted0 [2] :=
  (claim_C6_rejected_accounting exOracleUntrusted exStoreTrusted0 [2] []).1
    (Or.inl (by decide))

/-! ## Claim C7: verify against an empty trust state -/

/-- C7 counterexample: verifying a non-empty candidate against the entirely
    empty trust state *accepts* it (degenerate-store policy) and leaves the
    rejected list empty, so `GetRejectedList` afterwards returns no entry
    rather than exactly one entry byte-equal to the candidate. -/
theorem claim_C7_counterexample :
    (FileCertStore_verifyCertificate exOracleUntrusted emptyCertStore [1] []).1 = .good ∧
    ¬ (getRejectedListMethod (setCertGroup emptyServer .application
        (FileCertStore_verifyCertificate exOracleUntrusted emptyCertStore [1] []).2) =
       [[1]]) := by
  decide

/-- C7 (amended): a verify of any candidate against a trust state whose four
    lists are all empty returns `Good` without modifying the store, and a
    following `GetRejectedList` returns zero entries (assuming the rejected
    lists started empty). -/
theorem claim_C7_empty_store_accepts (o : CryptoOracle) (cert : Bytes) (srv : Server)
    (happ : srv.secureChannelPKI = emptyCertStore)
    (huser : srv.sessionPKI.rejected = [])
    (hne : cert ≠ []) :
    FileCertStore_verifyCertificate o srv.secureChannelPKI cert [] =
      (.good, srv.secureChannelPKI) ∧
    getRejectedListMethod (setCertGroup srv .application
      (FileCertStore_verifyCertificate o srv.secureChannelPKI cert []).2) = [] := by
  have hv : FileCertStore_verifyCertificate o emptyCertStore cert [] =
      (.good, emptyCertStore) := rfl
  constructor
  · rw [happ]; exact hv
  · rw [happ, hv]
    simp [getRejectedListMethod, setCertGroup, FileCertStore_getRejectedList,
      emptyCertStore, huser]

/-- C7 witness: the amended theorem at a concrete oracle and candidate. -/
theorem claim_C7_witness :
    FileCertStore_verifyCertificate exOracleUntrusted emptyServer.secureChannelPKI [1] [] =
      (.good, emptyServer.secureChannelPKI) ∧
    getRejectedListMethod (setCertGroup emptyServer .application
      (FileCertStore_verifyCertificate exOracleUntrusted
        emptyServer.secureChannelPKI [1] []).2) = [] :=
  claim_C7_empty_store_accepts exOracleUntrusted [1] emptyServer rfl rfl (by decide)

/-! ## Claim C1: ApplyChanges preconditions -/

theorem transaction_setFileInfo (srv : Server) (g : GroupId) (fi : FileInfo) :
    (setFileInfo srv g fi).transaction = srv.transaction := by
  cases g <;> rfl

/-- A pending server with one staged group and no open handles. -/
def srvPendingStaged : Server :=
  { secureChannelPKI := emptyCertStore, sessionPKI := emptyCertStore
    transaction := { state := .pending, sessionId := 1
                     certGroups := [(.application, exStoreTrusted0)]
                     certificateInfos := [] }
    fileInfoApplication := { openCount := 0, fileContexts := [] }
    fileInfoUserToken := { openCount := 0, fileContexts := [] } }

/-- C1: ApplyChanges commits only under its preconditions: a FRESH
    transaction yields `NothingToDo`; a non-owner session under a pending
    transaction yields `UserAccessDenied`; an open file handle on any group
    affected by the transaction refuses with `InvalidState` and nothing is
    committed; otherwise the staged trust-list changes are committed onto
    the live stores. -/
theorem claim_C1_applyChanges_preconditions (srv : Server) (sessionId : Nat) :
    (srv.transaction.state = .fresh →
      applyChanges srv sessionId = (.badNothingToDo, srv)) ∧
    (srv.transaction.state = .pending → srv.transaction.sessionId ≠ sessionId →
      applyChanges srv sessionId = (.badUserAccessDenied, srv)) ∧
    (srv.transaction.state = .pending → srv.transaction.sessionId = sessionId →
      (∃ p ∈ srv.transaction.certGroups, (getFileInfo srv p.1).openCount > 0) →
      applyChanges srv sessionId = (.badInvalidState, srv)) ∧
    (srv.transaction.state = .pending → srv.transaction.sessionId = sessionId →
      (∀ p ∈ srv.transaction.certGroups, (getFileInfo srv p.1).openCount = 0) →
      applyChanges srv sessionId = applyChangesToServer srv ∧
      (applyChanges srv sessionId).1 = .good ∧
      (∀ g st, srv.transaction.certGroups = [(g, st)] →
        (applyChanges srv sessionId).2 =
          setCertGroup srv g
            (FileCertStore_setTrustList (getCertGroup srv g)
              (FileCertStore_getTrustList st 15)))) := by
  refine ⟨?_, ?_, ?_, ?_⟩
  · intro h
    unfold applyChanges
    rw [if_pos h]
  · intro h hne
    unfold applyChanges
    rw [if_neg (by rw [h]; simp), if_pos hne]
  · intro h he hex
    unfold applyChanges
    rw [if_neg (by rw [h]; simp), if_neg (by simp [he]),
        if_pos (List.any_eq_true.mpr
          (by rcases hex with ⟨p, hp, hgt⟩; exact ⟨p, hp, by simpa using hgt⟩))]
  · intro h he hall
    have hcommit : applyChanges srv sessionId = applyChangesToServer srv := by
      unfold applyChanges
      rw [if_neg (by rw [h]; simp), if_neg (by simp [he]), if_neg ?_]
      rw [List.any_eq_true]
      rintro ⟨p, hp, hgt⟩
      have hz := hall p hp
      have : (getFileInfo srv p.1).openCount > 0 := by simpa using hgt
      omega
    refine ⟨hcommit, ?_, ?_⟩
    · rw [hcommit]; rfl
    · intro g st hcg
      rw [hcommit]
      unfold applyChangesToServer
      rw [hcg]
      rfl

/-- C1 witness: a concrete pending transaction owned by session 1 with one
    staged group and no open handles commits onto the live store. -/
theorem claim_C1_witness :
    applyChanges srvPendingStaged 1 = applyChangesToServer srvPendingStaged ∧
    (applyChanges srvPendingStaged 1).1 = .good ∧
    (∀ g st, srvPendingStaged.transaction.certGroups = [(g, st)] →
      (applyChanges srvPendingStaged 1).2 =
        setCertGroup srvPendingStaged g
          (FileCertStore_setTrustList (getCertGroup srvPendingStaged g)
            (FileCertStore_getTrustList st 15))) :=
  (claim_C1_applyChanges_preconditions srvPendingStaged 1).2.2.2 rfl rfl (by decide)

/-! ## Claim C2: OPEN failure modes -/

/-- The trivial trust-list encoder used for concrete instances. -/
def encTrivial : TrustListDataType → Bytes := fun _ => []

/-- A WRITE|ERASE_EXISTING context held by session 1 under handle 1. -/
def exWriteCtx : FileContext :=
  { file := [], fileHandle := 1, sessionId := 1, currentPos := 0, openFileMode := 6 }

/-- A server in the write-open state: one WRITE context on the application
    group and the pending transaction the write-open created. -/
def srvWriteOpen : Server :=
  { secureChannelPKI := emptyCertStore, sessionPKI := emptyCertStore
    transaction := GDSTransaction_init 1
    fileInfoApplication := { openCount := 1, fileContexts := [exWriteCtx] }
    fileInfoUserToken := { openCount := 0, fileContexts := [] } }

/-- C2 counterexample: with a WRITE handle open on the group — and hence the
    transaction the write-open created pending — a READ open from another
    session fails with `BadTransactionPending`, not `BadNotReadable`: the
    pending-transaction check precedes all mode handling and `openTrustList`
    never returns `BadNotReadable`. -/
theorem claim_C2_counterexample :
    exWriteCtx ∈ srvWriteOpen.fileInfoApplication.fileContexts ∧
    exWriteCtx.openFileMode = modeWriteErase ∧
    (openTrustList encTrivial srvWriteOpen 2 .application modeRead).1 =
      .badTransactionPending ∧
    ¬ ((openTrustList encTrivial srvWriteOpen 2 .application modeRead).1 =
        .badNotReadable) := by
  decide

/-- C2 (amended): while no transaction is pending, a mode other than READ
    and WRITE|ERASE_EXISTING fails with `InvalidState`; a WRITE open is
    refused (`NotWritable`) unless the group's `openCount` is 0, and on
    success it begins a PENDING transaction bound to the caller's session;
    while a transaction is pending — in particular while a WRITE handle is
    open, which implies a pending transaction — every open, READ included,
    fails with `TransactionPending`. -/
theorem claim_C2_open_modes (enc : TrustListDataType → Bytes) (srv : Server)
    (sessionId : Nat) (g : GroupId) (mode : Nat) :
    (srv.transaction.state ≠ .pending → mode ≠ modeRead → mode ≠ modeWriteErase →
      openTrustList enc srv sessionId g mode = (.badInvalidState, srv, none)) ∧
    (srv.transaction.state ≠ .pending → mode = modeWriteErase →
      (getFileInfo srv g).openCount ≠ 0 →
      openTrustList enc srv sessionId g mode = (.badNotWritable, srv, none)) ∧
    (srv.transaction.state ≠ .pending → mode = modeWriteErase →
      (getFileInfo srv g).openCount = 0 →
      (openTrustList enc srv sessionId g mode).1 = .good ∧
      (openTrustList enc srv sessionId g mode).2.1.transaction =
        GDSTransaction_init sessionId) ∧
    (srv.transaction.state = .pending →
      openTrustList enc srv sessionId g mode = (.badTransactionPending, srv, none)) := by
  refine ⟨?_, ?_, ?_, ?_⟩
  · intro hnp hr hw
    unfold openTrustList
    rw [if_neg hnp, if_neg hw, if_neg hr]
  · intro hnp hm hnz
    subst hm
    unfold openTrustList
    rw [if_neg hnp, if_pos rfl, if_pos hnz]
  · intro hnp hm hz
    subst hm
    unfold openTrustList
    rw [if_neg hnp, if_pos rfl, if_neg (by simp [hz])]
    constructor
    · rfl
    · show (openTrustListFinish enc
        { srv with transaction := GDSTransaction_init sessionId }
        sessionId g modeWriteErase).2.1.transaction = GDSTransaction_init sessionId
      unfold openTrustListFinish
      rw [transaction_setFileInfo]
  · intro hp
    unfold openTrustList
    rw [if_pos hp]

/-- C2 witness: a WRITE open on an idle server succeeds and binds the
    pending transaction to the caller. -/
theorem claim_C2_witness :
    (openTrustList encTrivial emptyServer 1 .application modeWriteErase).1 = .good ∧
    (openTrustList encTrivial emptyServer 1 .application modeWriteErase).2.1.transaction =
      GDSTransaction_init 1 :=
  (claim_C2_open_modes encTrivial emptyServer 1 .application modeWriteErase).2.2.1
    (by decide) rfl rfl

/-! ## Claim C8: READ semantics -/

/-- The net effect of a successful `readTrustList` once the clamped length
    `k` is known: copy `k` bytes from the cursor and advance it, or return
    the empty buffer untouched when `k = 0`. -/
def readResult (srv : Server) (sessionId : Nat) (g : GroupId) (handle : Nat)
    (ctx : FileContext) (k : Nat) : StatusCode × Server × Bytes :=
  if 0 < k then
    (.good,
     setFileInfo srv g (updateFileContext (getFileInfo srv g) sessionId handle
       (fun c => { c with currentPos := c.currentPos + k })),
     (ctx.file.drop ctx.currentPos).take k)
  else (.good, srv, [])

theorem getFileInfo_setFileInfo (srv : Server) (g : GroupId) (fi : FileInfo) :
    getFileInfo (setFileInfo srv g fi) g = fi := by
  cases g <;> rfl

theorem sizeTOfInt32_natCast (n : Nat) (h : n < 2 ^ 31) :
    sizeTOfInt32 (n : Int) = n := by
  unfold sizeTOfInt32
  omega

/-- The two `size_t` clamps of `readTrustList` compute the remaining-bytes
    bound for non-negative lengths and the whole remainder for negative
    lengths (whose cast is astronomically large). -/
theorem readClamp_eq (L : Int) (n c : Nat) (hc : c ≤ n) (hn : n < 2 ^ 31)
    (hL1 : -(2 ^ 31) ≤ L) (hL2 : L < 2 ^ 31) :
    (if sizeTOfInt32 (if sizeTOfInt32 L ≥ n then (n : Int) else L) ≥ n - c
     then ((n - c : Nat) : Int)
     else (if sizeTOfInt32 L ≥ n then (n : Int) else L)) =
    (((if L < 0 then n - c else min L.toNat (n - c)) : Nat) : Int) := by
  rcases Decidable.em (L < 0) with hneg | hpos
  · have h1 : sizeTOfInt32 L ≥ n := by unfold sizeTOfInt32; omega
    rw [if_pos h1, sizeTOfInt32_natCast n hn, if_pos (Nat.sub_le n c), if_pos hneg]
  · have h0 : 0 ≤ L := by omega
    have hcast : sizeTOfInt32 L = L.toNat := by unfold sizeTOfInt32; omega
    rw [if_neg hpos, hcast]
    rcases Decidable.em (L.toNat ≥ n) with hbig | hsmall
    · rw [if_pos hbig, sizeTOfInt32_natCast n hn, if_pos (Nat.sub_le n c)]
      have : n - c = min L.toNat (n - c) := by omega
      rw [← this]
    · rw [if_neg hsmall]
      have hcast2 : sizeTOfInt32 L = L.toNat := hcast
      rcases Decidable.em (L.toNat ≥ n - c) with hge | hlt
      · rw [if_pos (by rw [hcast]; exact hge)]
        have : n - c = min L.toNat (n - c) := by omega
        rw [← this]
      · rw [if_neg (by rw [hcast]; exact hlt)]
        have : min L.toNat (n - c) = L.toNat := by omega
        rw [this, Int.toNat_of_nonneg h0]

theorem find?_map_update {q : FileContext → Bool} {f : FileContext → FileContext}
    (hq : ∀ c, q (f c) = q c) :
    ∀ {l : List FileContext} {ctx : FileContext}, l.find? q = some ctx →
      (l.map (fun c => if q c then f c else c)).find? q = some (f ctx) := by
  intro l
  induction l with
  | nil => intro ctx h; cases h
  | cons a l ih =>
    intro ctx h
    cases hqa : q a with
    | false =>
      rw [List.find?_cons_of_neg l (by simp [hqa])] at h
      rw [List.map_cons, List.find?_cons_of_neg _ (by rw [if_neg (by simp [hqa]), hqa]; simp)]
      exact ih h
    | true =>
      rw [List.find?_cons_of_pos l hqa] at h
      injection h with h
      subst h
      rw [List.map_cons, List.find?_cons_of_pos _ (by rw [if_pos hqa, hq a]; exact hqa),
          if_pos hqa]

/-- On a READ handle the call reduces to `readResult` at the clamped
    length. -/
theorem readTrustList_eq_readResult (srv : Server) (sessionId : Nat) (g : GroupId)
    (handle : Nat) (L : Int) (ctx : FileContext)
    (hctx : getFileContext (getFileInfo srv g) sessionId handle = some ctx)
    (hmode : ctx.openFileMode = modeRead)
    (hc : ctx.currentPos ≤ ctx.file.length) (hn : ctx.file.length < 2 ^ 31)
    (hL1 : -(2 ^ 31) ≤ L) (hL2 : L < 2 ^ 31) :
    readTrustList srv sessionId g handle L =
      readResult srv sessionId g handle ctx
        (if L < 0 then ctx.file.length - ctx.currentPos
         else min L.toNat (ctx.file.length - ctx.currentPos)) := by
  simp only [readTrustList, hctx]
  rw [if_neg (fun hne => hne hmode)]
  rw [readClamp_eq L ctx.file.length ctx.currentPos hc hn hL1 hL2]
  generalize (if L < 0 then ctx.file.length - ctx.currentPos
              else min L.toNat (ctx.file.length - ctx.currentPos)) = k
  cases k with
  | zero => simp [readResult]
  | succ k => simp [readResult]

theorem readResult_fst (srv : Server) (sessionId : Nat) (g : GroupId)
    (handle : Nat) (ctx : FileContext) (k : Nat) :
    (readResult srv sessionId g handle ctx k).1 = .good := by
  unfold readResult
  split <;> rfl

theorem readResult_out (srv : Server) (sessionId : Nat) (g : GroupId)
    (handle : Nat) (ctx : FileContext) (k : Nat) :
    (readResult srv sessionId g handle ctx k).2.2 =
      (ctx.file.drop ctx.currentPos).take k := by
  unfold readResult
  split
  · rfl
  · rename_i hk
    have : k = 0 := by omega
    rw [this, List.take_zero]

theorem readResult_cursor (srv : Server) (sessionId : Nat) (g : GroupId)
    (handle : Nat) (ctx : FileContext) (k : Nat)
    (hctx : getFileContext (getFileInfo srv g) sessionId handle = some ctx) :
    getFileContext (getFileInfo (readResult srv sessionId g handle ctx k).2.1 g)
        sessionId handle = some { ctx with currentPos := ctx.currentPos + k } := by
  unfold readResult
  split
  · rw [getFileInfo_setFileInfo]
    exact find?_map_update
      (q := fun c => c.fileHandle == handle && c.sessionId == sessionId)
      (f := fun c => { c with currentPos := c.currentPos + k })
      (fun c => rfl) hctx
  · rename_i hk
    have hk0 : k = 0 := by omega
    subst hk0
    have he : ({ ctx with currentPos := ctx.currentPos + 0 } : FileContext) = ctx := by
      rw [Nat.add_zero]
    rw [he]
    exact hctx

/-- The READ context over the snapshot `[5,6,7]` at cursor 0. -/
def ctxRead3 : FileContext :=
  { file := [5, 6, 7], fileHandle := 1, sessionId := 1, currentPos := 0
    openFileMode := 1 }

/-- A server holding that single READ context on the application group. -/
def srvRead3 : Server :=
  { secureChannelPKI := emptyCertStore, sessionPKI := emptyCertStore
    transaction := GDSTransaction_clear
    fileInfoApplication := { openCount := 1, fileContexts := [ctxRead3] }
    fileInfoUserToken := { openCount := 0, fileContexts := [] } }

/-- C8 counterexample: on a READ handle over the 3-byte snapshot `[5,6,7]`
    with cursor 0, a request with `length = -1` (the wire type is `Int32`)
    returns all 3 remaining bytes — the `(size_t)` cast turns the negative
    value into a huge bound — whereas the claimed byte count
    `min(L, n - c)` is `-1`. -/
theorem claim_C8_counterexample :
    (readTrustList srvRead3 1 .application 1 (-1)).2.2 = [5, 6, 7] ∧
    ¬ ((((readTrustList srvRead3 1 .application 1 (-1)).2.2.length : Int)) =
        min (-1) ((3 : Int) - 0)) := by
  decide

/-- C8 (amended): READ is a bounded snapshot read.  For an open handle with
    cursor `c` over a snapshot of `n` bytes (`c ≤ n`, `n` within `Int32`)
    and a requested `Int32` length `L`: a handle not opened READ fails with
    `InvalidState`; for `L ≥ 0` the call returns the `min(L, n-c)` bytes at
    offset `c` and advances the cursor by that amount; `L = 0` returns the
    empty buffer without advancing; at EOF the result is the empty buffer;
    for `L < 0` the `size_t` cast makes the call return the whole remainder
    `n - c`. -/
theorem claim_C8_read_semantics (srv : Server) (sessionId : Nat) (g : GroupId)
    (handle : Nat) (L : Int) (ctx : FileContext)
    (hctx : getFileContext (getFileInfo srv g) sessionId handle = some ctx)
    (hc : ctx.currentPos ≤ ctx.file.length) (hn : ctx.file.length < 2 ^ 31)
    (hL1 : -(2 ^ 31) ≤ L) (hL2 : L < 2 ^ 31) :
    (ctx.openFileMode ≠ modeRead →
      readTrustList srv sessionId g handle L = (.badInvalidState, srv, [])) ∧
    (ctx.openFileMode = modeRead → 0 ≤ L →
      (readTrustList srv sessionId g handle L).1 = .good ∧
      (readTrustList srv sessionId g handle L).2.2 =
        (ctx.file.drop ctx.currentPos).take
          (min L.toNat (ctx.file.length - ctx.currentPos)) ∧
      getFileContext (getFileInfo (readTrustList srv sessionId g handle L).2.1 g)
          sessionId handle =
        some { ctx with currentPos :=
          ctx.currentPos + min L.toNat (ctx.file.length - ctx.currentPos) }) ∧
    (ctx.openFileMode = modeRead → L = 0 →
      readTrustList srv sessionId g handle L = (.good, srv, [])) ∧
    (ctx.openFileMode = modeRead → ctx.currentPos = ctx.file.length →
      readTrustList srv sessionId g handle L = (.good, srv, [])) ∧
    (ctx.openFileMode = modeRead → L < 0 →
      (readTrustList srv sessionId g handle L).1 = .good ∧
      (readTrustList srv sessionId g handle L).2.2 =
        ctx.file.drop ctx.currentPos) := by
  refine ⟨?_, ?_, ?_, ?_, ?_⟩
  · intro ha
    simp only [readTrustList, hctx]
    rw [if_pos ha]
  · intro hmode hL0
    rw [readTrustList_eq_readResult srv sessionId g handle L ctx hctx hmode hc hn hL1 hL2]
    rw [if_neg (by omega)]
    exact ⟨readResult_fst _ _ _ _ _ _, readResult_out _ _ _ _ _ _,
           readResult_cursor _ _ _ _ _ _ hctx⟩
  · intro hmode hL0
    subst hL0
    rw [readTrustList_eq_readResult srv sessionId g handle 0 ctx hctx hmode hc hn hL1 hL2]
    rw [if_neg (by omega)]
    have : min (0 : Int).toNat (ctx.file.length - ctx.currentPos) = 0 := by
      simp
    rw [this]
    unfold readResult
    rw [if_neg (by omega)]
  · intro hmode heof
    rw [readTrustList_eq_readResult srv sessionId g handle L ctx hctx hmode hc hn hL1 hL2]
    have : (if L < 0 then ctx.file.length - ctx.currentPos
            else min L.toNat (ctx.file.length - ctx.currentPos)) = 0 := by
      rw [heof]
      split <;> omega
    rw [this]
    unfold readResult
    rw [if_neg (by omega)]
  · intro hmode hneg
    rw [readTrustList_eq_readResult srv sessionId g handle L ctx hctx hmode hc hn hL1 hL2]
    rw [if_pos hneg]
    refine ⟨readResult_fst _ _ _ _ _ _, ?_⟩
    rw [readResult_out]
    exact List.take_of_length_le (by simp)

/-- C8 witness: reading 2 bytes from the 3-byte snapshot `[5,6,7]` at
    cursor 0 returns `[5,6]`. -/
theorem claim_C8_witness :
    (readTrustList srvRead3 1 .application 1 2).1 = .good ∧
    (readTrustList srvRead3 1 .application 1 2).2.2 = [5, 6] :=
  have h := (claim_C8_read_semantics srvRead3 1 .application 1 2 ctxRead3
    rfl (by decide) (by decide) (by decide) (by decide)).2.1 rfl (by decide)
  ⟨h.1, by rw [h.2.1]; rfl⟩

/-! ## Claim C9: SET_POSITION clamping -/

/-- The READ context over the 1-byte snapshot `[7]`. -/
def ctxRead1 : FileContext :=
  { file := [7], fileHandle := 1, sessionId := 1, currentPos := 0
    openFileMode := 1 }

/-- A server holding that context on the application group. -/
def srvRead1 : Server :=
  { secureChannelPKI := emptyCertStore, sessionPKI := emptyCertStore
    transaction := GDSTransaction_clear
    fileInfoApplication := { openCount := 1, fileContexts := [ctxRead1] }
    fileInfoUserToken := { openCount := 0, fileContexts := [] } }

/-- C9: the code reads the declared-UInt64 position through a `UA_UInt32`
    pointer, keeping only the low 32 bits.  `SET_POSITION(2^32)` on a 1-byte
    snapshot therefore sets the cursor to `min(2^32 mod 2^32, 1) = 0`, and
    `GET_POSITION` returns 0, where the claim (and `min(p, n)`) demands the
    snapshot length 1. -/
theorem claim_C9_truncation_bug :
    (getPositionTrustList
        (setPositionTrustList srvRead1 1 .application 1 (2 ^ 32)).2
        1 .application 1).2 = some 0 ∧
    ¬ ((0 : Nat) = min (2 ^ 32) 1) := by
  decide

/-- C9 supporting fact: for positions below `2^32` the clamp does behave as
    `min(p, n)` — the defect is exactly the 64-to-32-bit truncation. -/
theorem setPosition_min_below32 (srv : Server) (sessionId : Nat) (g : GroupId)
    (handle : Nat) (p : Nat) (ctx : FileContext)
    (hctx : getFileContext (getFileInfo srv g) sessionId handle = some ctx)
    (hp : p < 2 ^ 32) :
    getFileContext (getFileInfo (setPositionTrustList srv sessionId g handle p).2 g)
        sessionId handle =
      some { ctx with currentPos := min p ctx.file.length } := by
  simp only [setPositionTrustList, hctx]
  rw [Nat.mod_eq_of_lt hp, getFileInfo_setFileInfo]
  have he : (fun (c : FileContext) =>
      { c with currentPos := if ctx.file.length < p then ctx.file.length else p }) ctx =
      { ctx with currentPos := min p ctx.file.length } := by
    rcases Decidable.em (ctx.file.length < p) with h | h
    · rw [if_pos h]
      have : min p ctx.file.length = ctx.file.length := by omega
      rw [this]
    · rw [if_neg h]
      have : min p ctx.file.length = p := by omega
      rw [this]
  rw [← he]
  exact find?_map_update
    (q := fun c => c.fileHandle == handle && c.sessionId == sessionId)
    (f := fun c => { c with currentPos :=
      if ctx.file.length < p then ctx.file.length else p })
    (fun c => rfl) hctx

/-- C9 supporting witness: `SET_POSITION(5)` past the 1-byte EOF clamps the
    cursor to the snapshot length 1. -/
theorem setPosition_min_below32_witness :
    getFileContext (getFileInfo (setPositionTrustList srvRead1 1 .application 1 5).2
        .application) 1 1 =
      some { ctxRead1 with currentPos := 1 } :=
  have h := setPosition_min_below32 srvRead1 1 .application 1 5 ctxRead1 rfl (by decide)
  by rw [h]; rfl

/-! ## Claim C10: RemoveCertificate error paths -/

/-- The trivial certificate-utility oracle. -/
def exCertUtil : CertUtilOracle :=
  { thumbprintOf := fun _ => [], subjectNameOf := fun _ => []
    crlIssuerNameOf := fun _ => [] }

/-- C10: on a server with a FRESH transaction and an empty store,
    `RemoveCertificate` of an unmatched thumbprint fails with
    `InvalidArgument` and leaves the live trust lists unchanged — but the
    transaction it initialised at entry is left PENDING, bound to the
    caller, instead of being cleared back to FRESH as the claim (and the
    spec's state-rule taxonomy) requires. -/
theorem claim_C10_pending_transaction_leak :
    (removeCertificate exCertUtil emptyServer 7 .application [65, 65] true).1 =
      .badInvalidArgument ∧
    (removeCertificate exCertUtil emptyServer 7 .application [65, 65] true).2.transaction.state =
      .pending ∧
    ¬ ((removeCertificate exCertUtil emptyServer 7 .application [65, 65] true).2.transaction.state =
      .fresh) ∧
    (removeCertificate exCertUtil emptyServer 7 .application [65, 65] true).2.secureChannelPKI =
      emptyServer.secureChannelPKI ∧
    (removeCertificate exCertUtil emptyServer 7 .application [65, 65] true).2.sessionPKI =
      emptyServer.sessionPKI := by
  decide

end GDSPush
